import Mathlib

/-!
Shallow embedding of the medkit core annotation data model
(`medkit/core/attribute.py`, `medkit/core/text/span.py`,
`medkit/core/text/annotation.py`, `medkit/core/text/document.py`),
with the parts of the core that the repository snapshot does not ship
(`medkit/core/annotation.py`, `medkit/core/id.py`, `medkit/core/dict_conv.py`,
`medkit/core/text/span_utils.py`, `medkit/core/text/annotation_container.py`)
modelled from the specification, as marked on each definition.
-/

namespace Medkit

/-- JSON-like value type for serialized dictionaries: `Attribute.value` is an
open, loosely-typed payload (scalar or nested simple containers), represented
as a closed tagged union per the design notes. -/
inductive Value where
  | null
  | bool (b : Bool)
  | int (n : Int)
  | str (s : String)
  | list (xs : List Value)
  | dict (kvs : List (String × Value))

/-- A serialized dictionary: insertion-ordered association list of string keys. -/
abbrev Dict := List (String × Value)

/-- Lookup of a key in a serialized dictionary (first match). -/
def dlookup (k : String) : Dict → Option Value
  | [] => none
  | (k', v) :: rest => if k' = k then some v else dlookup k rest

/-- Slice of text extracted from the original text (`span.py`, `Span`):
a named tuple of `start` and `end` character indices; no validation is
performed at construction. -/
structure Span where
  start : Int
  «end» : Int
  deriving DecidableEq, Repr

/-- Derived length of a `Span` (`span.py`, `Span.length`): `end - start`. -/
def Span.length (s : Span) : Int := s.«end» - s.start

/-- Slice of text not present in the original text (`span.py`, `ModifiedSpan`):
carries a `length` and the `replaced_spans` of the original text it stands for;
no relationship between the two is checked at construction. -/
structure ModifiedSpan where
  length : Int
  replaced_spans : List Span
  deriving DecidableEq, Repr

/-- The union `Span | ModifiedSpan` (`span.py`, `AnySpanType`). -/
inductive AnySpanType where
  | span (s : Span)
  | modified (m : ModifiedSpan)
  deriving DecidableEq, Repr

/-- Hexadecimal digit character for a value below 16, lowercase. -/
def hexChar (n : Nat) : Char :=
  if n < 10 then Char.ofNat (48 + n) else Char.ofNat (87 + n)

/-- Big-endian, zero-padded list of `d` hexadecimal digits of `n`. -/
def toHexDigits : Nat → Nat → List Char
  | 0, _ => []
  | d + 1, n => toHexDigits d (n / 16) ++ [hexChar (n % 16)]

/-- Formatting of a 128-bit integer as a standard UUID string, as done by
`str(uuid.UUID(int=n))` in `document.py`: 32 lowercase hex digits in groups
of 8-4-4-4-12 separated by dashes. -/
def formatUUID (n : Nat) : String :=
  let cs := toHexDigits 32 (n % 2 ^ 128)
  String.mk (cs.take 8 ++ ['-'] ++ ((cs.drop 8).take 4) ++ ['-'] ++
    ((cs.drop 12).take 4) ++ ['-'] ++ ((cs.drop 16).take 4) ++ ['-'] ++ cs.drop 20)

/-- Modelled from the spec: stands for Python's
`random.Random(seed).getrandbits(128)` used in
`TextDocument._generate_raw_segment` — a pseudo-random generator seeded with
the seed string, drawing 128 bits. Per the contract "same seed ⇒ same output,
always", it is a deterministic function of the seed string alone; the exact
bit values of the external generator are not modelled. -/
def randomBits128 (seed : String) : Nat :=
  (seed.data.foldl (fun h c => (h * 1099511628211 + c.toNat) % 2 ^ 128)
    14695981039346656037) % 2 ^ 128

/-- Modelled from the spec: `medkit.core.id.generate_id` (module absent from
the snapshot) — a universally-unique opaque identifier; modelled as drawing
fresh entropy (the `entropy` argument) and formatting it as a UUID. -/
def generate_id (entropy : Nat) : String :=
  formatUUID (entropy % 2 ^ 128)

/-- Medkit attribute (`attribute.py`, `Attribute`): `{uid, label, value,
metadata}`. -/
structure Attribute where
  uid : String
  label : String
  value : Value
  metadata : Dict

/-- Constructor of `Attribute` (`attribute.py`, `Attribute.__init__`):
`metadata` defaults to empty, `uid` defaults to a fresh `generate_id`. -/
def mkAttribute (label : String) (value : Value) (metadata : Option Dict)
    (uid : Option String) (entropy : Nat) : Attribute :=
  { uid := uid.getD (generate_id entropy)
    label := label
    value := value
    metadata := metadata.getD [] }

/-- Copy of an attribute with a fresh identifier (`attribute.py`,
`Attribute.copy`). -/
def Attribute.copy (a : Attribute) (entropy : Nat) : Attribute :=
  { a with uid := generate_id entropy }

/-- Medkit segment (`annotation.py`, `Segment`): base annotation fields
`{uid, label, attrs, metadata}` plus `spans` and `text`. -/
structure Segment where
  uid : String
  label : String
  attrs : List Attribute
  metadata : Dict
  spans : List AnySpanType
  text : String

/-- Medkit relation (`annotation.py`, `Relation`): base annotation fields
plus `source_id` and `target_id`, stored verbatim as plain identifier
strings. -/
structure Relation where
  uid : String
  label : String
  attrs : List Attribute
  metadata : Dict
  source_id : String
  target_id : String

/-- The text-annotation hierarchy (`annotation.py`): the concrete variants
`Segment`, `Entity` (a `Segment` with the same fields and a distinct class
identity) and `Relation`. -/
inductive TextAnn where
  | segment (s : Segment)
  | entity (e : Segment)
  | relation (r : Relation)

/-- Unique identifier of a text annotation, common to all variants. -/
def TextAnn.uid : TextAnn → String
  | .segment s => s.uid
  | .entity e => e.uid
  | .relation r => r.uid

/-- Label of a text annotation, common to all variants. -/
def TextAnn.label : TextAnn → String
  | .segment s => s.label
  | .entity e => e.label
  | .relation r => r.label

/-- Constructor of `Segment` (`annotation.py`, `Segment.__init__`): stores
`spans` and `text` verbatim; `attrs`/`metadata` default to fresh empty
containers, `ann_id` defaults to a fresh `generate_id`. No validation is
performed. -/
def mkSegment (label : String) (spans : List AnySpanType) (text : String)
    (attrs : Option (List Attribute)) (ann_id : Option String)
    (metadata : Option Dict) (entropy : Nat) : Segment :=
  { uid := ann_id.getD (generate_id entropy)
    label := label
    attrs := attrs.getD []
    metadata := metadata.getD []
    spans := spans
    text := text }

/-- Constructor of `Relation` (`annotation.py`, `Relation.__init__`): stores
`source_id` and `target_id` verbatim; the existence of the referenced
annotation uids is not checked — no container is consulted. The constructor
never fails, which the `Except` result records as always `.ok`. -/
def mkRelation (label : String) (source_id : String) (target_id : String)
    (attrs : Option (List Attribute)) (rel_id : Option String)
    (metadata : Option Dict) (entropy : Nat) : Except String Relation :=
  .ok
    { uid := rel_id.getD (generate_id entropy)
      label := label
      attrs := attrs.getD []
      metadata := metadata.getD []
      source_id := source_id
      target_id := target_id }

/-- The fixed sentinel label of the raw segment (`document.py`,
`TextDocument.RAW_LABEL`). -/
def RAW_LABEL : String := "RAW_TEXT"

/-- Auto-generation of the raw segment (`document.py`,
`TextDocument._generate_raw_segment`): a deterministic uuid is derived from
the document uid by seeding a pseudo-random generator with `doc_id` and
formatting 128 drawn bits as a UUID; the segment carries the sentinel label,
the single span `Span(0, len(text))` and the full text. -/
def generate_raw_segment (text : String) (doc_id : String) : Segment :=
  { uid := formatUUID (randomBits128 doc_id)
    label := RAW_LABEL
    attrs := []
    metadata := []
    spans := [.span ⟨0, (text.length : Int)⟩]
    text := text }

/-- Errors of the core (error taxonomy of the spec): duplicate identifier on
container insertion, failed identifier lookup, malformed serialized data. -/
inductive MedkitError where
  | duplicateId (uid : String)
  | notFound (uid : String)
  | malformed
  deriving DecidableEq, Repr

/-- Document holding text annotations (`document.py`, `TextDocument`):
`{uid, metadata, raw_segment, anns}`. The annotation container is modelled
as the insertion-ordered list of added annotations; the raw segment is
injected at construction and held separately from the added annotations. -/
structure TextDocument where
  uid : String
  metadata : Dict
  raw_segment : Segment
  anns : List TextAnn

/-- Full document text (`document.py`, `TextDocument.text`): a read-only
projection of `raw_segment.text`. -/
def TextDocument.text (d : TextDocument) : String := d.raw_segment.text

/-- Modelled from the spec: `AnnotationContainer.add`
(`annotation_container.py` absent from the snapshot) — fails with
`DuplicateIdError` if an annotation with the same uid already exists
(the raw segment included), else appends preserving insertion order. -/
def containerAdd (raw : Segment) (anns : List TextAnn) (a : TextAnn) :
    Except MedkitError (List TextAnn) :=
  if a.uid = raw.uid ∨ anns.any (fun b => b.uid = a.uid) then
    .error (.duplicateId a.uid)
  else
    .ok (anns ++ [a])

/-- Modelled from the spec: `AnnotationContainer.get_by_id`
(`annotation_container.py` absent from the snapshot) — returns the single
annotation matching `uid` (the raw segment is visible like any other
annotation), failing with `NotFoundError` if absent. -/
def containerGetById (raw : Segment) (anns : List TextAnn) (uid : String) :
    Except MedkitError TextAnn :=
  if uid = raw.uid then .ok (.segment raw)
  else
    match anns.find? (fun b => b.uid = uid) with
    | some a => .ok a
    | none => .error (.notFound uid)

/-- Constructor of `TextDocument` (`document.py`, `TextDocument.__init__`):
`anns`/`metadata` default to fresh empty containers, `uid` defaults to a
fresh `generate_id`; the raw segment is auto-generated from the text and the
document uid, and each annotation of `anns` is added to the container in
order (an add may fail with `DuplicateIdError`). -/
def mkTextDocument (text : String) (anns : List TextAnn) (metadata : Option Dict)
    (uid : Option String) (entropy : Nat) : Except MedkitError TextDocument :=
  let uid := uid.getD (generate_id entropy)
  let raw := generate_raw_segment text uid
  (anns.foldlM (containerAdd raw) []).map fun added =>
    { uid := uid
      metadata := metadata.getD []
      raw_segment := raw
      anns := added }

/-- Modelled from the spec: `dict_conv.add_class_name_to_data_dict`
(`dict_conv.py` absent from the snapshot) — embeds the originating class's
canonical name in the emitted mapping, under the `class_name` key. -/
def add_class_name_to_data_dict (className : String) (d : Dict) : Dict :=
  d ++ [("class_name", Value.str className)]

/-- Serialization of an `Attribute` (`attribute.py`, `Attribute.to_dict`):
`{uid, label, value, metadata}` plus the class name. -/
def Attribute.to_dict (a : Attribute) : Dict :=
  add_class_name_to_data_dict "Attribute"
    [("uid", .str a.uid), ("label", .str a.label), ("value", a.value),
     ("metadata", .dict a.metadata)]

/-- Modelled from the spec: the subclass registry for `Attribute`
(`dict_conv.py` absent from the snapshot) — a mapping from a canonical
class-name string to that subclass's reconstruction function, populated at
subclass definition. -/
abbrev AttributeRegistry := List (String × (Dict → Option Attribute))

/-- Lookup of a class name in an `Attribute` subclass registry. -/
def lookupReconstructor : AttributeRegistry → String → Option (Dict → Option Attribute)
  | [], _ => none
  | (n, f) :: rest, name => if n = name then some f else lookupReconstructor rest name

/-- Modelled from the spec: `dict_conv.get_subclass_for_data_dict`
(`dict_conv.py` absent from the snapshot) — reads the class name embedded in
the dict; returns the registered subclass's reconstruction function, or
`none` when the name is absent or does not name a registered subclass, in
which case the caller falls back to the base type. -/
def get_subclass_for_data_dict (registry : AttributeRegistry) (d : Dict) :
    Option (Dict → Option Attribute) :=
  match dlookup "class_name" d with
  | some (.str name) => lookupReconstructor registry name
  | _ => none

/-- Deserialization of an `Attribute`, parametrized by the subclass registry
(`attribute.py`, `Attribute.from_dict`): dispatch to a registered subclass
when the embedded class name names one, otherwise fall back to constructing
the base `Attribute` from the common fields. -/
def Attribute.from_dict_with (registry : AttributeRegistry) (d : Dict) :
    Option Attribute :=
  match get_subclass_for_data_dict registry d with
  | some f => f d
  | none =>
    match dlookup "uid" d, dlookup "label" d, dlookup "value" d,
        dlookup "metadata" d with
    | some (.str uid), some (.str label), some value, some (.dict metadata) =>
        some { uid, label, value, metadata }
    | _, _, _, _ => none

/-- The program's `Attribute` subclass registry: no `Attribute` subclass is
defined in the repository snapshot, so the registry is empty. -/
def attributeRegistry : AttributeRegistry := []

/-- Deserialization of an `Attribute` with the program's registry
(`attribute.py`, `Attribute.from_dict`). -/
def Attribute.from_dict (d : Dict) : Option Attribute :=
  Attribute.from_dict_with attributeRegistry d

/-- Modelled from the spec: serialization of a plain `Span` (absent from the
snapshot's `span.py` though called by `Segment.to_dict`) — a `{start, end}`
mapping. -/
def Span.to_dict (s : Span) : Dict :=
  [("start", .int s.start), ("end", .int s.«end»)]

/-- Modelled from the spec: serialization of a `ModifiedSpan` (absent from
the snapshot's `span.py`) — a `{length, replaced_spans}` mapping, the
replaced spans serialized as `{start, end}` mappings. -/
def ModifiedSpan.to_dict (m : ModifiedSpan) : Dict :=
  [("length", .int m.length),
   ("replaced_spans", .list (m.replaced_spans.map fun s => .dict s.to_dict))]

/-- Serialization of an `AnySpanType`, dispatching on the variant. -/
def AnySpanType.to_dict : AnySpanType → Dict
  | .span s => s.to_dict
  | .modified m => m.to_dict

/-- Modelled from the spec: deserialization of a plain `Span` from a
`{start, end}` mapping. -/
def Span.from_dict (d : Dict) : Option Span :=
  match dlookup "start" d, dlookup "end" d with
  | some (.int s), some (.int e) => some ⟨s, e⟩
  | _, _ => none

/-- Deserialization of a replaced span from a serialized value. -/
def spanFromValue : Value → Option Span
  | .dict d => Span.from_dict d
  | _ => none

/-- Modelled from the spec: deserialization of an `AnySpanType` — a
`{start, end}` mapping yields a `Span`, a `{length, replaced_spans}` mapping
yields a `ModifiedSpan`. -/
def AnySpanType.from_dict (d : Dict) : Option AnySpanType :=
  match Span.from_dict d with
  | some s => some (.span s)
  | none =>
    match dlookup "length" d, dlookup "replaced_spans" d with
    | some (.int len), some (.list rs) =>
        (rs.mapM spanFromValue).map fun spans => .modified ⟨len, spans⟩
    | _, _ => none

/-- Deserialization of an attribute from a serialized value. -/
def attrFromValue : Value → Option Attribute
  | .dict d => Attribute.from_dict d
  | _ => none

/-- Deserialization of a span from a serialized value. -/
def spanAnyFromValue : Value → Option AnySpanType
  | .dict d => AnySpanType.from_dict d
  | _ => none

/-- Modelled from the spec: the serialized form of the base annotation fields
(`annotation.py` base class absent from the snapshot) — `{uid, label,
attrs, metadata}`, attributes serialized recursively. -/
def annBaseDict (uid label : String) (attrs : List Attribute) (metadata : Dict) :
    Dict :=
  [("uid", .str uid), ("label", .str label),
   ("attrs", .list (attrs.map fun a => .dict a.to_dict)),
   ("metadata", .dict metadata)]

/-- Serialization of a `Segment` under a given class name (`annotation.py`,
`Segment.to_dict`): the base fields updated with `spans` and `text`, plus the
class name. -/
def Segment.to_dict_named (className : String) (s : Segment) : Dict :=
  add_class_name_to_data_dict className
    (annBaseDict s.uid s.label s.attrs s.metadata ++
      [("spans", .list (s.spans.map fun sp => .dict sp.to_dict)),
       ("text", .str s.text)])

/-- Serialization of a `Segment` (`annotation.py`, `Segment.to_dict`). -/
def Segment.to_dict (s : Segment) : Dict := Segment.to_dict_named "Segment" s

/-- Serialization of an `Entity` (`annotation.py`, `Entity` inherits
`Segment.to_dict`; the embedded class name is the entity's own). -/
def Entity.to_dict (e : Segment) : Dict := Segment.to_dict_named "Entity" e

/-- Serialization of a `Relation` (`annotation.py`, `Relation.to_dict`): the
base fields updated with `source_id` and `target_id`, plus the class name. -/
def Relation.to_dict (r : Relation) : Dict :=
  add_class_name_to_data_dict "Relation"
    (annBaseDict r.uid r.label r.attrs r.metadata ++
      [("source_id", .str r.source_id), ("target_id", .str r.target_id)])

/-- Serialization of a text annotation, dispatching on the variant. -/
def TextAnn.to_dict : TextAnn → Dict
  | .segment s => s.to_dict
  | .entity e => Entity.to_dict e
  | .relation r => r.to_dict

/-- Deserialization of a `Segment` from its serialized fields. -/
def Segment.from_dict (d : Dict) : Option Segment :=
  match dlookup "uid" d, dlookup "label" d, dlookup "attrs" d,
      dlookup "metadata" d, dlookup "spans" d, dlookup "text" d with
  | some (.str uid), some (.str label), some (.list attrVs),
      some (.dict metadata), some (.list spanVs), some (.str text) =>
    match attrVs.mapM attrFromValue, spanVs.mapM spanAnyFromValue with
    | some attrs, some spans => some { uid, label, attrs, metadata, spans, text }
    | _, _ => none
  | _, _, _, _, _, _ => none

/-- Deserialization of a `Relation` from its serialized fields. -/
def Relation.from_dict (d : Dict) : Option Relation :=
  match dlookup "uid" d, dlookup "label" d, dlookup "attrs" d,
      dlookup "metadata" d, dlookup "source_id" d, dlookup "target_id" d with
  | some (.str uid), some (.str label), some (.list attrVs),
      some (.dict metadata), some (.str source_id), some (.str target_id) =>
    (attrVs.mapM attrFromValue).map fun attrs =>
      { uid, label, attrs, metadata, source_id, target_id }
  | _, _, _, _, _, _ => none

/-- Modelled from the spec: the polymorphic `from_dict` dispatch on the
text-annotation base class (`annotation.py` base class absent from the
snapshot) — reads the embedded class name and dispatches to the matching
variant's reconstruction. -/
def TextAnn.from_dict (d : Dict) : Option TextAnn :=
  match dlookup "class_name" d with
  | some (.str name) =>
    if name = "Segment" then (Segment.from_dict d).map .segment
    else if name = "Entity" then (Segment.from_dict d).map .entity
    else if name = "Relation" then (Relation.from_dict d).map .relation
    else none
  | _ => none

/-- Serialization of a `TextDocument` (`document.py`,
`TextDocument.to_dict`): `{uid, text, metadata}` plus, when `with_anns`, the
serialized annotations of the container, plus the class name. -/
def TextDocument.to_dict (with_anns : Bool) (d : TextDocument) : Dict :=
  add_class_name_to_data_dict "TextDocument"
    ([("uid", .str d.uid), ("text", .str d.text), ("metadata", .dict d.metadata)] ++
      (if with_anns then
        [("anns", .list (d.anns.map fun a => .dict a.to_dict))]
      else []))

/-- Deserialization of a contained annotation from a serialized value. -/
def annFromValue : Value → Option TextAnn
  | .dict d => TextAnn.from_dict d
  | _ => none

/-- Deserialization of a `TextDocument` (`document.py`,
`TextDocument.from_dict`): reconstructs the annotations (defaulting to the
empty list when the `anns` key is absent) and constructs the document from
`uid`, `text`, `anns` and `metadata`, re-deriving the raw segment. -/
def TextDocument.from_dict (d : Dict) : Except MedkitError TextDocument :=
  match dlookup "uid" d, dlookup "text" d, dlookup "metadata" d with
  | some (.str uid), some (.str text), some (.dict metadata) =>
    match
      (match dlookup "anns" d with
        | some (.list vs) => vs.mapM annFromValue
        | none => some []
        | some _ => none) with
    | some anns => mkTextDocument text anns (some metadata) (some uid) 0
    | none => .error .malformed
  | _, _, _ => .error .malformed

/-- Modelled from the spec: the merging step of `span_utils.normalize_spans`
(`span_utils.py` absent from the snapshot) — merges adjacent plain Spans
that are contiguous (`a.end == b.start`) into a single Span; ModifiedSpan
boundaries are left untouched (a Span is never merged with a ModifiedSpan,
even if adjacent). -/
def normalizeStep (x : AnySpanType) (r : List AnySpanType) :
    List AnySpanType :=
  match x, r with
  | .span a, .span b :: rest' =>
    if a.«end» = b.start then .span ⟨a.start, b.«end»⟩ :: rest'
    else .span a :: .span b :: rest'
  | _, _ => x :: r

/-- Modelled from the spec: `span_utils.normalize_spans` recursion — each
span is combined with the normalization of the remainder by the merging
step. -/
def normalize_spans : List AnySpanType → List AnySpanType
  | [] => []
  | x :: rest => normalizeStep x (normalize_spans rest)

/-- Projection of a span to a plain `Span` when it is one. -/
def toPlain : AnySpanType → Option Span
  | .span s => some s
  | .modified _ => none

/-- All-plain projection of a span list: `some` exactly when every element is
a plain `Span`. -/
def plainSpans (l : List AnySpanType) : Option (List Span) := l.mapM toPlain

/-- Minimum of the `start` fields over a non-empty list of plain spans, as
Python's `min(s.start for s in spans)`. -/
def spanListMinStart : Span → List Span → Int
  | s, [] => s.start
  | s, t :: ts => min s.start (spanListMinStart t ts)

/-- Maximum of the `end` fields over a non-empty list of plain spans, as
Python's `max(s.end for s in spans)`. -/
def spanListMaxEnd : Span → List Span → Int
  | s, [] => s.«end»
  | s, t :: ts => max s.«end» (spanListMaxEnd t ts)

/-- Clamping of a Python slice index to the text length: negative indices
count from the end, indices past the end clip to the length. -/
def pySliceIdx (len : Nat) (i : Int) : Nat :=
  if i < 0 then (max (i + (len : Int)) 0).toNat else min i.toNat len

/-- Python string slicing `t[a:b]`. -/
def pySlice (t : String) (a b : Int) : String :=
  let l := t.data
  String.mk ((l.take (pySliceIdx l.length b)).drop (pySliceIdx l.length a))

/-- Text window around a segment (`annotation.py`, `Segment.get_snippet`):
normalizes the segment's spans, takes the bounding `start`/`end`, extends
before by at most `max_extend_length // 2` clipped at 0, reallocates the
remaining budget after, clips to the document length, and slices the
document text. The source computes `min`/`max` of the normalized spans'
bounds, which requires every normalized span to be a plain `Span` and the
list to be non-empty; otherwise the result is `none` (a runtime error in the
source). -/
def Segment.get_snippet (s : Segment) (doc : TextDocument)
    (max_extend_length : Int) : Option String :=
  match plainSpans (normalize_spans s.spans) with
  | some (p :: ps) =>
    let start := spanListMinStart p ps
    let «end» := spanListMaxEnd p ps
    let start_extended := max (start - Int.fdiv max_extend_length 2) 0
    let remaining_max_extend_length := max_extend_length - (start - start_extended)
    let end_extended :=
      min («end» + remaining_max_extend_length) (doc.text.length : Int)
    some (pySlice doc.text start_extended end_extended)
  | _ => none

/-- Modelled from the spec: the mutation surface of an annotation — the only
mutations the public API offers on a constructed annotation are appending an
attribute and updating a metadata entry. -/
inductive AnnOp where
  | addAttr (a : Attribute)
  | setMetadataEntry (key : String) (v : Value)

/-- Update of one entry of a metadata mapping, inserting it when absent. -/
def setEntry : Dict → String → Value → Dict
  | [], k, v => [(k, v)]
  | (k', v') :: rest, k, v =>
    if k' = k then (k, v) :: rest else (k', v') :: setEntry rest k v

/-- Application of a public mutation to a `Segment`. -/
def Segment.applyOp : AnnOp → Segment → Segment
  | .addAttr a, s => { s with attrs := s.attrs ++ [a] }
  | .setMetadataEntry k v, s => { s with metadata := setEntry s.metadata k v }

/-- Application of a public mutation to a `Relation`. -/
def Relation.applyOp : AnnOp → Relation → Relation
  | .addAttr a, r => { r with attrs := r.attrs ++ [a] }
  | .setMetadataEntry k v, r => { r with metadata := setEntry r.metadata k v }

/-- Application of a public mutation to a text annotation, preserving the
variant. -/
def TextAnn.applyOp (op : AnnOp) : TextAnn → TextAnn
  | .segment s => .segment (Segment.applyOp op s)
  | .entity e => .entity (Segment.applyOp op e)
  | .relation r => .relation (Relation.applyOp op r)

/-- The class identity of a text annotation. -/
def TextAnn.className : TextAnn → String
  | .segment _ => "Segment"
  | .entity _ => "Entity"
  | .relation _ => "Relation"

/-- The spans of a text annotation, for the variants that carry them. -/
def TextAnn.spansOf : TextAnn → Option (List AnySpanType)
  | .segment s => some s.spans
  | .entity e => some e.spans
  | .relation _ => none

/-- The text of a text annotation, for the variants that carry it. -/
def TextAnn.textOf : TextAnn → Option String
  | .segment s => some s.text
  | .entity e => some e.text
  | .relation _ => none

/-- Concrete document used as first construction of the C1 witness. -/
def c1DocA : TextDocument :=
  { uid := "doc1", metadata := [],
    raw_segment := generate_raw_segment "hello" "doc1", anns := [] }

/-- Concrete document used as second construction of the C1 witness. -/
def c1DocB : TextDocument :=
  { uid := "doc1", metadata := [],
    raw_segment := generate_raw_segment "hello" "doc1", anns := [] }

/-- Concrete document used by the C4 witness. -/
def c4Doc : TextDocument :=
  { uid := "doc1", metadata := [],
    raw_segment := generate_raw_segment "The cat sat." "doc1", anns := [] }

/-- Concrete registry used by the C6 witness: one registered subclass. -/
def c6Registry : AttributeRegistry := [("RegisteredSub", fun _ => none)]

/-- Concrete serialized dict used by the C6 witness: base Attribute fields
plus a class name that names no registered subclass. -/
def c6Dict : Dict :=
  [("uid", .str "a1"), ("label", .str "negated"), ("value", .bool true),
   ("metadata", .dict []), ("class_name", .str "FutureAttribute")]

/-- Concrete raw segment used by the C7 witness container. -/
def c7Raw : Segment := generate_raw_segment "The cat sat." "doc7"

/-- A successful document construction yields the deterministic raw segment
and stores the effective uid. -/
lemma mkTextDocument_ok_raw {t : String} {anns : List TextAnn} {md : Option Dict}
    {uid : Option String} {e : Nat} {d : TextDocument}
    (h : mkTextDocument t anns md uid e = .ok d) :
    d.raw_segment = generate_raw_segment t (uid.getD (generate_id e)) ∧
    d.uid = uid.getD (generate_id e) := by
  simp only [mkTextDocument] at h
  cases hf : List.foldlM
      (containerAdd (generate_raw_segment t (uid.getD (generate_id e)))) [] anns with
  | error err => rw [hf] at h; simp [Except.map] at h
  | ok added =>
    rw [hf] at h
    simp only [Except.map, Except.ok.injEq] at h
    exact ⟨by rw [← h], by rw [← h]⟩

/-- C1: for every document uid string u and every text t, constructing a
TextDocument with uid u twice (with any annotation lists, metadata and
entropy, hence in the same run or across runs) yields raw segments with
identical uids; the raw-segment identifier is the deterministic function of
the document's uid obtained by seeding the pseudo-random generator with u
and formatting the drawn 128 bits as a UUID. -/
theorem claim1_raw_uid_deterministic (u t : String)
    (anns1 anns2 : List TextAnn) (md1 md2 : Option Dict) (e1 e2 : Nat)
    (d1 d2 : TextDocument)
    (h1 : mkTextDocument t anns1 md1 (some u) e1 = .ok d1)
    (h2 : mkTextDocument t anns2 md2 (some u) e2 = .ok d2) :
    d1.raw_segment.uid = d2.raw_segment.uid ∧
    d1.raw_segment.uid = formatUUID (randomBits128 u) := by
  have r1 := (mkTextDocument_ok_raw h1).1
  have r2 := (mkTextDocument_ok_raw h2).1
  rw [r1, r2]
  simp [generate_raw_segment]

/-- C1 witness: two concrete constructions with uid "doc1" and different
entropy yield the same raw-segment uid. -/
theorem claim1_witness :
    (Except.ok c1DocA : Except MedkitError TextDocument).isOk = true ∧
    c1DocA.raw_segment.uid = c1DocB.raw_segment.uid ∧
    c1DocA.raw_segment.uid = formatUUID (randomBits128 "doc1") :=
  ⟨rfl,
    claim1_raw_uid_deterministic "doc1" "hello" [] [] none none 0 7 c1DocA c1DocB
      rfl rfl⟩

/-- C9: the raw-segment uid derived at construction depends only on the
document's uid and not on the document's text: for the same uid u and any
two texts, the raw segments have equal uids even though their texts (and
spans) are those of each text. -/
theorem claim9_raw_uid_text_independent (u t1 t2 : String) :
    (generate_raw_segment t1 u).uid = (generate_raw_segment t2 u).uid ∧
    (generate_raw_segment t1 u).text = t1 ∧
    (generate_raw_segment t2 u).text = t2 ∧
    (generate_raw_segment t1 u).spans = [.span ⟨0, (t1.length : Int)⟩] ∧
    (generate_raw_segment t2 u).spans = [.span ⟨0, (t2.length : Int)⟩] :=
  ⟨rfl, rfl, rfl, rfl, rfl⟩

/-- C4: a TextDocument constructed from text t has a raw segment labeled
with the fixed sentinel label RAW_TEXT, text equal to t and spans equal to
the single-element list [Span(0, len(t))]; and the document's text is a
read-only projection of the raw segment's text. -/
theorem claim4_raw_segment_shape (t : String) (anns : List TextAnn)
    (md : Option Dict) (uid : Option String) (e : Nat) (d : TextDocument)
    (h : mkTextDocument t anns md uid e = .ok d) :
    d.raw_segment.label = RAW_LABEL ∧
    d.raw_segment.label = "RAW_TEXT" ∧
    d.raw_segment.text = t ∧
    d.raw_segment.spans = [.span ⟨0, (t.length : Int)⟩] ∧
    d.text = d.raw_segment.text := by
  have r := (mkTextDocument_ok_raw h).1
  rw [r]
  simp [generate_raw_segment, TextDocument.text, RAW_LABEL, r]

/-- C4 witness: the concrete document built from "The cat sat.". -/
theorem claim4_witness :
    c4Doc.raw_segment.label = RAW_LABEL ∧
    c4Doc.raw_segment.label = "RAW_TEXT" ∧
    c4Doc.raw_segment.text = "The cat sat." ∧
    c4Doc.raw_segment.spans = [.span ⟨0, (("The cat sat." : String).length : Int)⟩] ∧
    c4Doc.text = c4Doc.raw_segment.text :=
  claim4_raw_segment_shape "The cat sat." [] none (some "doc1") 0 c4Doc rfl

/-- C10: Span and ModifiedSpan construction is total and performs no
validation: for all integers s and e, Span(s, e) constructs with the fields
stored verbatim and length = e - s (which may be zero or negative), and
ModifiedSpan accepts any length and any list of replaced spans without
checking any relationship between them. -/
theorem claim10_span_construction_total (s e : Int) (len : Int)
    (rs : List Span) :
    (Span.mk s e).start = s ∧ (Span.mk s e).«end» = e ∧
    (Span.mk s e).length = e - s ∧
    (ModifiedSpan.mk len rs).length = len ∧
    (ModifiedSpan.mk len rs).replaced_spans = rs :=
  ⟨rfl, rfl, rfl, rfl, rfl⟩

/-- C5: for every Segment, to_dict returns a mapping containing the class
name, uid, label, attrs, metadata, the segment's text, and a spans entry in
which each plain Span is serialized as a start/end mapping and each
ModifiedSpan as a length/replaced_spans mapping. -/
theorem claim5_segment_to_dict (s : Segment) :
    dlookup "class_name" s.to_dict = some (.str "Segment") ∧
    dlookup "uid" s.to_dict = some (.str s.uid) ∧
    dlookup "label" s.to_dict = some (.str s.label) ∧
    dlookup "attrs" s.to_dict =
      some (.list (s.attrs.map fun a => .dict a.to_dict)) ∧
    dlookup "metadata" s.to_dict = some (.dict s.metadata) ∧
    dlookup "text" s.to_dict = some (.str s.text) ∧
    dlookup "spans" s.to_dict =
      some (.list (s.spans.map fun sp => .dict sp.to_dict)) ∧
    (∀ sp : Span, (AnySpanType.span sp).to_dict =
      [("start", .int sp.start), ("end", .int sp.«end»)]) ∧
    (∀ m : ModifiedSpan, (AnySpanType.modified m).to_dict =
      [("length", .int m.length),
       ("replaced_spans", .list (m.replaced_spans.map fun sp => .dict sp.to_dict))]) := by
  refine ⟨?_, ?_, ?_, ?_, ?_, ?_, ?_, fun sp => rfl, fun m => rfl⟩ <;>
    simp [Segment.to_dict, Segment.to_dict_named, add_class_name_to_data_dict,
      annBaseDict, dlookup]

/-- C6: for every dict containing the base Attribute fields and a class name
that does not name a registered Attribute subclass, Attribute.from_dict does
not fail: it falls back to constructing a base Attribute from the common
fields. -/
theorem claim6_attribute_from_dict_fallback (registry : AttributeRegistry)
    (d : Dict) (name uid label : String) (value : Value) (metadata : Dict)
    (hc : dlookup "class_name" d = some (.str name))
    (hr : lookupReconstructor registry name = none)
    (hu : dlookup "uid" d = some (.str uid))
    (hl : dlookup "label" d = some (.str label))
    (hv : dlookup "value" d = some value)
    (hm : dlookup "metadata" d = some (.dict metadata)) :
    Attribute.from_dict_with registry d =
      some { uid := uid, label := label, value := value, metadata := metadata } := by
  simp [Attribute.from_dict_with, get_subclass_for_data_dict, hc, hr, hu, hl, hv, hm]

/-- C6 witness: a dict carrying an unrecognized class name, against a
registry holding one registered subclass, falls back to the base
Attribute. -/
theorem claim6_witness :
    Attribute.from_dict_with c6Registry c6Dict =
      some { uid := "a1", label := "negated", value := .bool true,
             metadata := [] } :=
  claim6_attribute_from_dict_fallback c6Registry c6Dict "FutureAttribute"
    "a1" "negated" (.bool true) [] rfl rfl rfl rfl rfl rfl

/-- C7: for every label and pair of strings, constructing a Relation
succeeds (never fails) and stores source_id and target_id verbatim without
consulting any container; resolving a uid that was never added to a
container fails with NotFoundError only at query time. -/
theorem claim7_relation_construction (label source_id target_id : String)
    (attrs : Option (List Attribute)) (rel_id : Option String)
    (md : Option Dict) (e : Nat) :
    (∃ r, mkRelation label source_id target_id attrs rel_id md e = .ok r ∧
      r.source_id = source_id ∧ r.target_id = target_id ∧ r.label = label) ∧
    (∀ (raw : Segment) (anns : List TextAnn) (uid : String),
      uid ≠ raw.uid → (∀ b ∈ anns, TextAnn.uid b ≠ uid) →
      containerGetById raw anns uid = .error (.notFound uid)) := by
  constructor
  · exact ⟨_, rfl, rfl, rfl, rfl⟩
  · intro raw anns uid hraw hanns
    simp only [containerGetById, if_neg hraw]
    have : anns.find? (fun b => b.uid = uid) = none := by
      apply List.find?_eq_none.mpr
      intro b hb
      simpa using hanns b hb
    rw [this]

/-- C7 witness: a concrete Relation built from endpoints never added
anywhere constructs fine and stores them verbatim; querying an absent uid in
a concrete container reports NotFoundError. -/
theorem claim7_witness :
    mkRelation "caused_by" "src-uid" "tgt-uid" none (some "r1") none 0 =
      .ok { uid := "r1", label := "caused_by", attrs := [], metadata := [],
            source_id := "src-uid", target_id := "tgt-uid" } ∧
    containerGetById c7Raw [] "src-uid" = .error (.notFound "src-uid") :=
  ⟨rfl,
    (claim7_relation_construction "caused_by" "src-uid" "tgt-uid" none
        (some "r1") none 0).2 c7Raw [] "src-uid" (by decide)
      (by intro b hb; simp at hb)⟩

/-- C8: after construction, applying any operation of the public mutation
surface (appending an attribute, updating a metadata entry) to any text
annotation leaves its uid, label, class identity and, for segments and
entities, its spans and text unchanged. -/
theorem claim8_mutation_frame (op : AnnOp) (t : TextAnn) :
    (t.applyOp op).uid = t.uid ∧
    (t.applyOp op).label = t.label ∧
    (t.applyOp op).className = t.className ∧
    (t.applyOp op).spansOf = t.spansOf ∧
    (t.applyOp op).textOf = t.textOf := by
  cases t <;> cases op <;>
    simp [TextAnn.applyOp, Segment.applyOp, Relation.applyOp, TextAnn.uid,
      TextAnn.label, TextAnn.className, TextAnn.spansOf, TextAnn.textOf]

/-- Round trip of a base Attribute through its serialized dict. -/
lemma attribute_round_trip (a : Attribute) :
    Attribute.from_dict a.to_dict = some a := rfl

/-- Round trip of a serialized attribute list. -/
lemma attrList_round_trip (l : List Attribute) :
    (l.map (fun a => Value.dict a.to_dict)).mapM attrFromValue = some l := by
  induction l with
  | nil => rfl
  | cons a rest ih =>
    simp only [List.map_cons, List.mapM_cons, ih]
    rfl

/-- Round trip of a serialized replaced-span list. -/
lemma replacedList_round_trip (l : List Span) :
    (l.map (fun s => Value.dict s.to_dict)).mapM spanFromValue = some l := by
  induction l with
  | nil => rfl
  | cons s rest ih =>
    simp only [List.map_cons, List.mapM_cons, ih]
    rfl

/-- Round trip of a span (plain or modified) through its serialized dict. -/
lemma span_round_trip (sp : AnySpanType) :
    AnySpanType.from_dict sp.to_dict = some sp := by
  cases sp with
  | span s => rfl
  | modified m =>
    have h0 : Span.from_dict (ModifiedSpan.to_dict m) = none := rfl
    have h1 : dlookup "length" (ModifiedSpan.to_dict m) =
        some (.int m.length) := rfl
    have h2 : dlookup "replaced_spans" (ModifiedSpan.to_dict m) =
        some (.list (m.replaced_spans.map fun s => .dict s.to_dict)) := rfl
    simp only [AnySpanType.to_dict, AnySpanType.from_dict, h0, h1, h2,
      replacedList_round_trip m.replaced_spans]
    rfl

/-- Round trip of a serialized span list. -/
lemma spanList_round_trip (l : List AnySpanType) :
    (l.map (fun sp => Value.dict sp.to_dict)).mapM spanAnyFromValue = some l := by
  induction l with
  | nil => rfl
  | cons sp rest ih =>
    have h : spanAnyFromValue (Value.dict sp.to_dict) = some sp :=
      span_round_trip sp
    simp only [List.map_cons, List.mapM_cons, h, ih]
    rfl

/-- Round trip of a Segment through its serialized dict, whatever class name
is embedded. -/
lemma segment_round_trip (cn : String) (s : Segment) :
    Segment.from_dict (Segment.to_dict_named cn s) = some s := by
  have h1 : dlookup "uid" (Segment.to_dict_named cn s) = some (.str s.uid) := rfl
  have h2 : dlookup "label" (Segment.to_dict_named cn s) =
      some (.str s.label) := rfl
  have h3 : dlookup "attrs" (Segment.to_dict_named cn s) =
      some (.list (s.attrs.map fun a => .dict a.to_dict)) := rfl
  have h4 : dlookup "metadata" (Segment.to_dict_named cn s) =
      some (.dict s.metadata) := rfl
  have h5 : dlookup "spans" (Segment.to_dict_named cn s) =
      some (.list (s.spans.map fun sp => .dict sp.to_dict)) := rfl
  have h6 : dlookup "text" (Segment.to_dict_named cn s) = some (.str s.text) := rfl
  simp only [Segment.from_dict, h1, h2, h3, h4, h5, h6,
    attrList_round_trip s.attrs, spanList_round_trip s.spans]

/-- Round trip of a Relation through its serialized dict. -/
lemma relation_round_trip (r : Relation) :
    Relation.from_dict r.to_dict = some r := by
  have h1 : dlookup "uid" r.to_dict = some (.str r.uid) := rfl
  have h2 : dlookup "label" r.to_dict = some (.str r.label) := rfl
  have h3 : dlookup "attrs" r.to_dict =
      some (.list (r.attrs.map fun a => .dict a.to_dict)) := rfl
  have h4 : dlookup "metadata" r.to_dict = some (.dict r.metadata) := rfl
  have h5 : dlookup "source_id" r.to_dict = some (.str r.source_id) := rfl
  have h6 : dlookup "target_id" r.to_dict = some (.str r.target_id) := rfl
  simp only [Relation.from_dict, h1, h2, h3, h4, h5, h6,
    attrList_round_trip r.attrs]
  rfl

/-- Round trip of any text-annotation variant, restoring the class
identity. -/
lemma textAnn_round_trip (t : TextAnn) :
    TextAnn.from_dict t.to_dict = some t := by
  cases t with
  | segment s =>
    have hc : dlookup "class_name" (Segment.to_dict_named "Segment" s) =
        some (.str "Segment") := rfl
    simp only [TextAnn.to_dict, Segment.to_dict, TextAnn.from_dict, hc, if_true]
    rw [segment_round_trip]
    rfl
  | entity e =>
    have hc : dlookup "class_name" (Segment.to_dict_named "Entity" e) =
        some (.str "Entity") := rfl
    simp only [TextAnn.to_dict, Entity.to_dict, TextAnn.from_dict, hc, if_true]
    rw [segment_round_trip]
    rfl
  | relation r =>
    have hc : dlookup "class_name" (Relation.to_dict r) =
        some (.str "Relation") := rfl
    simp only [TextAnn.to_dict, TextAnn.from_dict, hc, if_true]
    rw [relation_round_trip]
    rfl

/-- Round trip of a serialized annotation list. -/
lemma annList_round_trip (l : List TextAnn) :
    (l.map (fun a => Value.dict a.to_dict)).mapM annFromValue = some l := by
  induction l with
  | nil => rfl
  | cons a rest ih =>
    have h : annFromValue (Value.dict a.to_dict) = some a := textAnn_round_trip a
    simp only [List.map_cons, List.mapM_cons, h, ih]
    rfl

/-- Folding container adds over annotations with pairwise-fresh uids never
fails and appends in order. -/
lemma foldlM_containerAdd (raw : Segment) (anns : List TextAnn) :
    ∀ acc : List TextAnn,
      (∀ a ∈ anns, TextAnn.uid a ≠ raw.uid) →
      ((acc ++ anns).map TextAnn.uid).Nodup →
      List.foldlM (containerAdd raw) acc anns = .ok (acc ++ anns) := by
  induction anns with
  | nil =>
    intro acc _ _
    simp only [List.foldlM, List.append_nil]
    rfl
  | cons a rest ih =>
    intro acc hne hnd
    have hmem : a.uid ∉ acc.map TextAnn.uid := by
      have h := (List.nodup_append.mp (by simpa [List.map_append] using hnd)).2.2
      intro hin
      exact h hin (by simp)
    have hcond : ¬(a.uid = raw.uid ∨ (acc.any fun b => b.uid = a.uid) = true) := by
      rintro (h | h)
      · exact hne a (by simp) h
      · obtain ⟨b, hb, hba⟩ := List.any_eq_true.mp h
        exact hmem (List.mem_map.mpr ⟨b, hb, of_decide_eq_true hba⟩)
    have hstep : containerAdd raw acc a = .ok (acc ++ [a]) := by
      simp only [containerAdd]
      rw [if_neg hcond]
    rw [List.foldlM_cons, hstep]
    show List.foldlM (containerAdd raw) (acc ++ [a]) rest = _
    rw [ih (acc ++ [a]) (fun x hx => hne x (by simp [hx]))
      (by simpa [List.append_assoc] using hnd)]
    simp

/-- Well-formedness invariant established by document construction: the raw
segment is the one derived from the document's own text and uid, and all
annotation uids (the raw segment's included) are pairwise distinct. -/
def TextDocument.WF (d : TextDocument) : Prop :=
  d.raw_segment = generate_raw_segment d.raw_segment.text d.uid ∧
  (d.raw_segment.uid :: d.anns.map TextAnn.uid).Nodup

/-- C2: for every annotation variant — Attribute, the text-annotation
variants Segment, Entity and Relation, and TextDocument — from_dict applied
to to_dict reproduces a value equal to the original in all fields, nested
attrs and class identity included (documents under the construction
invariant on uids). -/
theorem claim2_round_trip :
    (∀ a : Attribute, Attribute.from_dict a.to_dict = some a) ∧
    (∀ t : TextAnn, TextAnn.from_dict t.to_dict = some t) ∧
    (∀ d : TextDocument, d.WF →
      TextDocument.from_dict (d.to_dict true) = .ok d) := by
  refine ⟨attribute_round_trip, textAnn_round_trip, ?_⟩
  intro d hwf
  obtain ⟨hraw, hnd⟩ := hwf
  have h1 : dlookup "uid" (d.to_dict true) = some (.str d.uid) := rfl
  have h2 : dlookup "text" (d.to_dict true) =
      some (.str d.raw_segment.text) := rfl
  have h3 : dlookup "metadata" (d.to_dict true) = some (.dict d.metadata) := rfl
  have h4 : dlookup "anns" (d.to_dict true) =
      some (.list (d.anns.map fun a => .dict a.to_dict)) := rfl
  simp only [TextDocument.from_dict, h1, h2, h3, h4, annList_round_trip d.anns]
  simp only [mkTextDocument, Option.getD_some, ← hraw]
  rw [foldlM_containerAdd d.raw_segment d.anns []
    (by
      have h := List.nodup_cons.mp hnd
      intro a ha hau
      exact h.1 (List.mem_map.mpr ⟨a, ha, hau⟩))
    (by simpa using (List.nodup_cons.mp hnd).2)]
  rfl

/-- Concrete attribute for the C2 witness. -/
def c2Attr : Attribute :=
  { uid := "a1", label := "negation", value := .bool false, metadata := [] }

/-- Concrete entity for the C2 witness, with a nested attribute, a plain
span and a modified span. -/
def c2Ann : TextAnn :=
  .entity
    { uid := "e1", label := "disease", attrs := [c2Attr], metadata := [],
      spans := [.span ⟨4, 7⟩, .modified ⟨2, [⟨8, 9⟩]⟩], text := "cat x" }

/-- Concrete document for the C2 witness. -/
def c2Doc : TextDocument :=
  { uid := "doc2", metadata := [("source", .str "file")],
    raw_segment := generate_raw_segment "The cat sat." "doc2",
    anns := [c2Ann] }

/-- C2 witness: the round trips evaluated at a concrete attribute, entity
and document. -/
theorem claim2_witness :
    Attribute.from_dict c2Attr.to_dict = some c2Attr ∧
    TextAnn.from_dict c2Ann.to_dict = some c2Ann ∧
    TextDocument.from_dict (c2Doc.to_dict true) = .ok c2Doc :=
  ⟨claim2_round_trip.1 c2Attr, claim2_round_trip.2.1 c2Ann,
    claim2_round_trip.2.2 c2Doc ⟨rfl, by decide⟩⟩

/-- The all-plain projection inverts mapping plain spans in. -/
lemma plainSpans_map (l : List Span) :
    plainSpans (l.map AnySpanType.span) = some l := by
  induction l with
  | nil => rfl
  | cons s rest ih =>
    simp only [plainSpans] at ih
    simp only [plainSpans, List.map_cons, List.mapM_cons, toPlain, ih]
    rfl

/-- The head minimum only depends on the head's start. -/
lemma spanListMinStart_head (x E : Int) (q : Span) (qs : List Span)
    (h : x ≤ q.start) :
    spanListMinStart ⟨x, E⟩ qs = min x (spanListMinStart q qs) := by
  cases qs with
  | nil => exact (min_eq_left h).symm
  | cons t ts =>
    show min x (spanListMinStart t ts) =
      min x (min q.start (spanListMinStart t ts))
    rw [← min_assoc, min_eq_left h]

/-- The head maximum only depends on the head's end. -/
lemma spanListMaxEnd_head (x S : Int) (q : Span) (qs : List Span)
    (h : x ≤ q.«end») :
    spanListMaxEnd ⟨S, q.«end»⟩ qs = max x (spanListMaxEnd q qs) := by
  cases qs with
  | nil => exact (max_eq_right h).symm
  | cons t ts =>
    show max q.«end» (spanListMaxEnd t ts) =
      max x (max q.«end» (spanListMaxEnd t ts))
    rw [← max_assoc, max_eq_right h]

/-- Normalization of an all-plain, valid span list yields an all-plain,
valid, non-empty span list with the same bounding start and end. -/
lemma normalize_spans_plain : ∀ (ps : List Span) (p : Span),
    (∀ sp ∈ p :: ps, sp.start ≤ sp.«end») →
    ∃ q qs, normalize_spans ((p :: ps).map AnySpanType.span) =
        (q :: qs).map AnySpanType.span ∧
      (∀ sp ∈ q :: qs, sp.start ≤ sp.«end») ∧
      spanListMinStart q qs = spanListMinStart p ps ∧
      spanListMaxEnd q qs = spanListMaxEnd p ps := by
  intro ps
  induction ps with
  | nil => intro p hv; exact ⟨p, [], rfl, hv, rfl, rfl⟩
  | cons r rs ih =>
    intro p hv
    obtain ⟨q, qs, hn, hqv, hmin, hmax⟩ :=
      ih r (fun sp hsp => hv sp (List.mem_cons_of_mem p hsp))
    rw [List.map_cons, normalize_spans, hn, List.map_cons]
    simp only [normalizeStep]
    by_cases hme : p.«end» = q.start
    · refine ⟨⟨p.start, q.«end»⟩, qs, ?_, ?_, ?_, ?_⟩
      · simp only [hme, if_pos]
        rfl
      · intro sp hsp
        rcases List.mem_cons.mp hsp with h | h
        · subst h
          have h1 : p.start ≤ p.«end» := hv p (by simp)
          have h2 : q.start ≤ q.«end» := hqv q (by simp)
          show p.start ≤ q.«end»
          omega
        · exact hqv sp (List.mem_cons_of_mem q h)
      · have h1 : p.start ≤ q.start := by
          have := hv p (List.mem_cons_self p _)
          omega
        rw [spanListMinStart_head p.start q.«end» q qs h1]
        show _ = min p.start (spanListMinStart r rs)
        rw [hmin]
      · have h2 : p.«end» ≤ q.«end» := by
          have := hqv q (List.mem_cons_self q _)
          omega
        rw [spanListMaxEnd_head p.«end» p.start q qs h2]
        show _ = max p.«end» (spanListMaxEnd r rs)
        rw [hmax]
    · refine ⟨p, q :: qs, ?_, ?_, ?_, ?_⟩
      · simp only [if_neg hme]
        rfl
      · intro sp hsp
        rcases List.mem_cons.mp hsp with h | h
        · rw [h]; exact hv p (by simp)
        · exact hqv sp h
      · show min p.start (spanListMinStart q qs) =
          min p.start (spanListMinStart r rs)
        rw [hmin]
      · show max p.«end» (spanListMaxEnd q qs) =
          max p.«end» (spanListMaxEnd r rs)
        rw [hmax]

/-- Lower bound for the bounding minimum start. -/
lemma le_spanListMinStart (x : Int) (p : Span) (ps : List Span)
    (h : ∀ sp ∈ p :: ps, x ≤ sp.start) : x ≤ spanListMinStart p ps := by
  induction ps generalizing p with
  | nil => exact h p (by simp)
  | cons r rs ih =>
    show x ≤ min p.start (spanListMinStart r rs)
    exact le_min (h p (by simp))
      (ih r (fun sp hsp => h sp (List.mem_cons_of_mem p hsp)))

/-- The bounding minimum start is at most the head's start. -/
lemma spanListMinStart_le (p : Span) (ps : List Span) :
    spanListMinStart p ps ≤ p.start := by
  cases ps with
  | nil => exact le_refl _
  | cons r rs => exact min_le_left _ _

/-- Upper bound for the bounding maximum end. -/
lemma spanListMaxEnd_le (y : Int) (p : Span) (ps : List Span)
    (h : ∀ sp ∈ p :: ps, sp.«end» ≤ y) : spanListMaxEnd p ps ≤ y := by
  induction ps generalizing p with
  | nil => exact h p (by simp)
  | cons r rs ih =>
    show max p.«end» (spanListMaxEnd r rs) ≤ y
    exact max_le (h p (by simp))
      (ih r (fun sp hsp => h sp (List.mem_cons_of_mem p hsp)))

/-- The bounding maximum end is at least the head's end. -/
lemma le_spanListMaxEnd (p : Span) (ps : List Span) :
    p.«end» ≤ spanListMaxEnd p ps := by
  cases ps with
  | nil => exact le_refl _
  | cons r rs => exact le_max_left _ _

/-- Length of a Python slice with a clamped nonnegative window. -/
lemma pySlice_length (t : String) (a b : Int) (h0 : 0 ≤ a) (hab : a ≤ b)
    (hl : a ≤ (t.length : Int)) :
    ((pySlice t a b).length : Int) = min b (t.length : Int) - a := by
  have hA : ¬(a < 0) := by omega
  have hB : ¬(b < 0) := by omega
  have hlen : t.length = t.data.length := rfl
  simp only [pySlice, pySliceIdx, hA, hB, if_false, ite_false, hlen,
    String.length, List.length_drop, List.length_take, Nat.cast_min]
  omega

/-- Concrete document used by the C3 counterexample and witness: twelve
characters of text. -/
def c3Doc : TextDocument :=
  { uid := "d3", metadata := [],
    raw_segment := generate_raw_segment "abcdefghijkl" "d3", anns := [] }

/-- Concrete segment used by the C3 counterexample and witness: one plain
span at the end of the document. -/
def c3Seg : Segment :=
  { uid := "s3", label := "X", attrs := [], metadata := [],
    spans := [.span ⟨10, 12⟩], text := "kl" }

/-- C3 counterexample: for the segment spanning (10, 12) of a 12-character
document and max_extend_length 10, get_snippet returns a 7-character window,
strictly shorter than min(max_extend_length + span_length, len(document
text)) = 12, although the document itself (12 characters) is not shorter
than that bound: the surplus of the end-side budget is not reallocated
before the segment, contradicting the claim as stated. -/
theorem claim3_counterexample :
    Segment.get_snippet c3Seg c3Doc 10 = some "fghijkl" ∧
    (("fghijkl" : String).length : Int) <
      min (10 + Span.length ⟨10, 12⟩) ((c3Doc.text.length : Int)) ∧
    ¬((c3Doc.text.length : Int) <
      min (10 + Span.length ⟨10, 12⟩) ((c3Doc.text.length : Int))) := by
  refine ⟨by decide, by decide, by decide⟩

/-- C3 (amended): for a segment of plain spans inside the document and any
max_extend_length L ≥ 0, get_snippet returns the window of the document text
from start_extended = max(start − L//2, 0) to end_extended = min(end + (L −
(start − start_extended)), len(text)); the before-side surplus is
reallocated after the segment but not conversely, so the window length
equals min(span_length + L, len(text) − start_extended) — which can be
strictly smaller than the claimed lower bound min(L + span_length,
len(text)) near the document end. -/
theorem claim3_amended (doc : TextDocument) (s : Segment) (L : Int)
    (p : Span) (ps : List Span)
    (hsp : s.spans = (p :: ps).map AnySpanType.span)
    (hv : ∀ sp ∈ p :: ps, 0 ≤ sp.start ∧ sp.start ≤ sp.«end» ∧
      sp.«end» ≤ (doc.text.length : Int))
    (hL : 0 ≤ L) :
    Segment.get_snippet s doc L =
      some (pySlice doc.text
        (max (spanListMinStart p ps - Int.fdiv L 2) 0)
        (min (spanListMaxEnd p ps +
          (L - (spanListMinStart p ps -
            max (spanListMinStart p ps - Int.fdiv L 2) 0)))
          (doc.text.length : Int))) ∧
    (((Segment.get_snippet s doc L).getD "").length : Int) =
      min ((spanListMaxEnd p ps - spanListMinStart p ps) + L)
        ((doc.text.length : Int) -
          max (spanListMinStart p ps - Int.fdiv L 2) 0) := by
  obtain ⟨q, qs, hn, hqv, hmin, hmax⟩ :=
    normalize_spans_plain ps p (fun sp hsp => ((hv sp hsp).2.1))
  have hGS : Segment.get_snippet s doc L =
      some (pySlice doc.text
        (max (spanListMinStart p ps - Int.fdiv L 2) 0)
        (min (spanListMaxEnd p ps +
          (L - (spanListMinStart p ps -
            max (spanListMinStart p ps - Int.fdiv L 2) 0)))
          (doc.text.length : Int))) := by
    simp only [Segment.get_snippet, hsp, hn, plainSpans_map, hmin, hmax]
  refine ⟨hGS, ?_⟩
  rw [hGS, Option.getD_some]
  have hS0 : 0 ≤ spanListMinStart p ps :=
    le_spanListMinStart 0 p ps (fun sp hsp => (hv sp hsp).1)
  have hSE : spanListMinStart p ps ≤ spanListMaxEnd p ps := by
    have h1 := spanListMinStart_le p ps
    have h2 := le_spanListMaxEnd p ps
    have h3 := (hv p (by simp)).2.1
    omega
  have hElen : spanListMaxEnd p ps ≤ (doc.text.length : Int) :=
    spanListMaxEnd_le _ p ps (fun sp hsp => (hv sp hsp).2.2)
  have hfd : Int.fdiv L 2 = L / 2 := by rw [Int.fdiv_eq_ediv]; omega
  rw [pySlice_length doc.text _ _ (by omega) (by rw [hfd]; omega)
    (by rw [hfd]; omega)]
  rw [hfd]
  omega

/-- C3 witness: the amended characterization evaluated at the concrete
counterexample document, segment and budget. -/
theorem claim3_witness :
    Segment.get_snippet c3Seg c3Doc 10 =
      some (pySlice c3Doc.text
        (max (spanListMinStart ⟨10, 12⟩ [] - Int.fdiv 10 2) 0)
        (min (spanListMaxEnd ⟨10, 12⟩ [] +
          (10 - (spanListMinStart ⟨10, 12⟩ [] -
            max (spanListMinStart ⟨10, 12⟩ [] - Int.fdiv 10 2) 0)))
          (c3Doc.text.length : Int))) ∧
    (((Segment.get_snippet c3Seg c3Doc 10).getD "").length : Int) =
      min ((spanListMaxEnd ⟨10, 12⟩ [] - spanListMinStart ⟨10, 12⟩ []) + 10)
        ((c3Doc.text.length : Int) -
          max (spanListMinStart ⟨10, 12⟩ [] - Int.fdiv 10 2) 0) :=
  claim3_amended c3Doc c3Seg 10 ⟨10, 12⟩ [] rfl (by decide) (by decide)

end Medkit
